import Mathlib

/-!
Shallow embedding of the OmniAgentPay sidecar bridge (`Bridge` class in
`bridge.ts`): the frame decoder (`handleData`), the request registry and
dispatcher (`send` / `resolveRequest`), and the process supervisor
(`start` / `stop` / the `exit` handler), together with the JSON
serialization used on the wire.

Modelling conventions:
* Side effects (console logging, spawning the child process, writing to its
  stdin, the promise resolve/reject callbacks stored in `pendingRequests`)
  are recorded as an explicit event trace (`Ev`).
* The `pendingRequests : Map<number, {resolve, reject}>` is modelled as the
  list of its keys: the stored callbacks carry no data, completion is
  observed through `Ev.resolved` / `Ev.rejected` events.
* `JSON.parse` plus the cast to `JsonRpcResponse` is an uninterpreted
  parameter `parse : String → Option JsonRpcResponse` (a platform builtin,
  not repository code); `JSON.stringify` of the request object is modelled
  concretely by `jsonStringify`.
* Exceptions (`throw` in `getBinaryPath`, propagated through `start` and
  `send`) are `Except String`; an `Except.error` result means the exception
  escaped before any state mutation, so the caller's state is unchanged.
* Filesystem facts (`fs.existsSync` on the two candidate paths) and the
  constructor argument `binaryPath` live in an environment record `Env`.
-/

/-- JSON values, as consumed by `JSON.stringify` and produced by
`JSON.parse`.  Numbers are modelled as integers (the protocol's ids are
integers and no claim involves non-integral numbers). -/
inductive Json where
  | null : Json
  | bool : Bool → Json
  | num : Int → Json
  | str : String → Json
  | arr : List Json → Json
  | obj : List (String × Json) → Json

/-- Hexadecimal digit used by the `\u00XX` escapes of `JSON.stringify`. -/
def hexDigit (n : Nat) : Char :=
  if n < 10 then Char.ofNat (48 + n) else Char.ofNat (87 + n)

/-- Escaping of one character inside a JSON string literal, as performed by
`JSON.stringify`. -/
def jsEscapeChar (c : Char) : String :=
  if c = '"' then "\\\""
  else if c = '\\' then "\\\\"
  else if c = '\x08' then "\\b"
  else if c = '\t' then "\\t"
  else if c = '\n' then "\\n"
  else if c = '\x0c' then "\\f"
  else if c = '\r' then "\\r"
  else if c.toNat < 32 then
    "\\u00" ++ String.mk [hexDigit (c.toNat / 16), hexDigit (c.toNat % 16)]
  else String.mk [c]

/-- A JSON string literal: quotes around the escaped characters. -/
def jsQuote (s : String) : String :=
  "\"" ++ String.join (s.data.map jsEscapeChar) ++ "\""

mutual

/-- `JSON.stringify` on compact output (no spacing), object keys in
insertion order, exactly as Node produces for object literals. -/
def jsonStringify : Json → String
  | .null => "null"
  | .bool b => if b then "true" else "false"
  | .num n => toString n
  | .str s => jsQuote s
  | .arr l => "[" ++ stringifyItems l ++ "]"
  | .obj l => "\x7b" ++ stringifyMembers l ++ "\x7d"

/-- Comma-separated serialization of array items. -/
def stringifyItems : List Json → String
  | [] => ""
  | [j] => jsonStringify j
  | j :: rest => jsonStringify j ++ "," ++ stringifyItems rest

/-- Comma-separated serialization of object members (`"key":value`). -/
def stringifyMembers : List (String × Json) → String
  | [] => ""
  | [(k, v)] => jsQuote k ++ ":" ++ jsonStringify v
  | (k, v) :: rest => jsQuote k ++ ":" ++ jsonStringify v ++ "," ++ stringifyMembers rest

end

/-- JavaScript truthiness of a JSON value (`if (error)`):
`null`, `false`, `0` and `""` are falsy, arrays and objects are truthy. -/
def jsTruthy : Json → Bool
  | .null => false
  | .bool b => b
  | .num n => decide (n ≠ 0)
  | .str s => decide (s ≠ "")
  | .arr _ => true
  | .obj _ => true

/-- Truthiness of an optional value: an absent (`undefined`) field is
falsy. -/
def optTruthy : Option Json → Bool
  | none => false
  | some j => jsTruthy j

/-- JavaScript property access `j.k`: the field of an object, `undefined`
(`none`) otherwise. -/
def jsonField (j : Json) (k : String) : Option Json :=
  match j with
  | .obj l => (l.find? (fun p => p.1 = k)).map (fun p => p.2)
  | _ => none

/-- The response shape `resolveRequest` destructures: `{ id, result, error }`.
`none` models an absent (`undefined`) field; `error` is kept as a raw JSON
value because the code only ever tests its truthiness and reads `.message`. -/
structure JsonRpcResponse where
  id : Nat
  result : Option Json
  error : Option Json

/-- Observable actions of the bridge, in program order. -/
inductive Ev where
  /-- `console.log` (the spawn announcement). -/
  | log : String → Ev
  /-- `console.warn` (the exit announcement). -/
  | warn : String → Ev
  /-- `console.error` for a non-protocol line: the diagnostic sink,
  carrying the trimmed line (line 92 of the source). -/
  | diag : String → Ev
  /-- `console.error` for a protocol-classified line that failed to parse
  (line 100 of the source). -/
  | parseFail : String → Ev
  /-- `spawn(binPath, ...)` of the worker executable. -/
  | spawn : String → Ev
  /-- `this.child.stdin.write(s)`: one atomic write of the string `s`. -/
  | write : String → Ev
  /-- `this.child.kill()`. -/
  | kill : Ev
  /-- `this.emit('exit', code)`. -/
  | emitExit : Option Int → Ev
  /-- `request.resolve(result)` for the pending entry of the given id. -/
  | resolved : Nat → Option Json → Ev
  /-- `request.reject(new Error(error.message))`: the payload is the
  `message` field of the error value (the only datum the `Error` carries). -/
  | rejected : Nat → Option Json → Ev

/-- The per-instance mutable fields of the `Bridge` class.  `child` is the
worker handle (`null` = `none`), `pendingRequests` the key set of the
pending map. -/
structure BridgeState where
  child : Option Unit
  requestId : Nat
  pendingRequests : List Nat
  buffer : String
deriving DecidableEq, Repr

/-- Environment of a bridge: the optional `binaryPath` constructor argument,
the two candidate paths (`path.resolve(__dirname, ...)` results) and whether
`fs.existsSync` holds of each. -/
structure Env where
  binaryPath : Option String
  devPath : String
  prodPath : String
  devPathExists : Bool
  prodPathExists : Bool
deriving DecidableEq, Repr

namespace Bridge

/-- Field initialisers of the class: no child, `requestId = 0`, empty
pending map, empty buffer. -/
def initState : BridgeState := ⟨none, 0, [], ""⟩

/-- `getBinaryPath`: the explicit constructor path if truthy, else the local
dev build if it exists, else the installed package path if it exists, else a
thrown `Error` naming both tried paths. -/
def getBinaryPath (env : Env) : Except String String :=
  if (env.binaryPath.getD "") ≠ "" then .ok (env.binaryPath.getD "")
  else if env.devPathExists then .ok env.devPath
  else if env.prodPathExists then .ok env.prodPath
  else .error ("Could not locate omniagentpay-server binary. Tries:\n" ++
    env.devPath ++ "\n" ++ env.prodPath)

/-- `start()`: resolve the binary path (propagating its exception), log, and
spawn the worker, attaching the stream and lifecycle handlers.  Note the
source has no guard on `this.child`: it spawns unconditionally. -/
def start (env : Env) (st : BridgeState) : Except String (BridgeState × List Ev) :=
  match getBinaryPath env with
  | .error e => .error e
  | .ok binPath =>
      .ok ({ st with child := some () },
        [.log ("[OmniAgentPay] Spawning sidecar: " ++ binPath), .spawn binPath])

/-- Rendering of the exit code in the template literal of the exit handler
(`code` is a number or `null`). -/
def exitCodeText : Option Int → String
  | none => "null"
  | some n => toString n

/-- The `this.child.on('exit', ...)` handler: warn, clear the child handle,
emit the `exit` event.  `pendingRequests` is not touched. -/
def onExit (st : BridgeState) (code : Option Int) : BridgeState × List Ev :=
  ({ st with child := none },
   [.warn ("[OmniAgentPay] Sidecar exited with code " ++ exitCodeText code),
    .emitExit code])

/-- `stop()`: `this.child?.kill()` then `this.child = null`.
`pendingRequests` is not touched. -/
def stop (st : BridgeState) : BridgeState × List Ev :=
  ({ st with child := none },
   match st.child with
   | some _ => [.kill]
   | none => [])

/-- `Map.set(id, entry)` on the key set: a replace for an existing key, an
insertion otherwise. -/
def mapSet (l : List Nat) (id : Nat) : List Nat :=
  if id ∈ l then l else l ++ [id]

/-- `resolveRequest(response)`: look the id up in the pending map; if
present, reject with `new Error(error.message)` when `error` is truthy,
otherwise resolve with `result`, then delete the entry; if absent, do
nothing. -/
def resolveRequest (st : BridgeState) (response : JsonRpcResponse) :
    BridgeState × List Ev :=
  if response.id ∈ st.pendingRequests then
    ({ st with pendingRequests := st.pendingRequests.erase response.id },
     [if optTruthy response.error then
        Ev.rejected response.id (response.error.bind (fun e => jsonField e "message"))
      else
        Ev.resolved response.id response.result])
  else (st, [])

/-- JavaScript whitespace as stripped by `String.prototype.trim` (the
ASCII portion; the incidental astral space characters never occur here). -/
def isJsWhitespace (c : Char) : Bool :=
  c = ' ' ∨ c = '\t' ∨ c = '\n' ∨ c = '\r' ∨ c = '\x0b' ∨ c = '\x0c'

/-- `line.trim()`: strip whitespace from both ends. -/
def jsTrim (s : String) : String :=
  ⟨((s.data.dropWhile isJsWhitespace).reverse.dropWhile isJsWhitespace).reverse⟩

/-- `trimmed.startsWith('\x7b')`: the first character is an opening brace. -/
def startsWithBrace (s : String) : Bool :=
  match s.data with
  | [] => false
  | c :: _ => c = '\x7b'

/-- `str.split(sep)` for a one-character separator: every occurrence splits,
empty segments are kept, and a string with no separator yields the one-element
list of itself (so the result is never empty). -/
def splitOnChar (c : Char) : List Char → List (List Char)
  | [] => [[]]
  | x :: xs =>
      if x = c then [] :: splitOnChar c xs
      else
        match splitOnChar c xs with
        | [] => [[x]]
        | s :: rest => (x :: s) :: rest

/-- `this.buffer.split('\n')` on strings. -/
def jsSplitNewline (s : String) : List String :=
  (splitOnChar '\n' s.data).map (fun l => ⟨l⟩)

/-- The body of the `for (const line of lines)` loop of `handleData`: trim;
skip empty lines; route non-brace lines to the diagnostic sink; parse brace
lines and hand the result to `resolveRequest`, logging (never throwing) on a
parse failure. -/
def handleLine (parse : String → Option JsonRpcResponse) (st : BridgeState)
    (line : String) : BridgeState × List Ev :=
  let trimmed := jsTrim line
  if trimmed = "" then (st, [])
  else if ¬ startsWithBrace trimmed then (st, [.diag trimmed])
  else
    match parse trimmed with
    | some response => resolveRequest st response
    | none => (st, [.parseFail trimmed])

/-- `handleData(chunk)`: append the chunk to the accumulation buffer, split
on the newline, keep the final segment (`lines.pop() || ''`) as the new
buffer, and process every complete line in order. -/
def handleData (parse : String → Option JsonRpcResponse) (st : BridgeState)
    (chunk : String) : BridgeState × List Ev :=
  let parts := jsSplitNewline (st.buffer ++ chunk)
  let st0 := { st with buffer := parts.getLastD "" }
  parts.dropLast.foldl
    (fun acc line =>
      let r := handleLine parse acc.1 line
      (r.1, acc.2 ++ r.2))
    (st0, [])

/-- The replacement character U+FFFD emitted for malformed UTF-8. -/
def replChar : Char := '�'

/-- Is the byte a UTF-8 continuation byte? -/
def isCont (b : Nat) : Bool := decide (0x80 ≤ b ∧ b ≤ 0xBF)

/-- Valid range of the first continuation byte of a three-byte sequence
(excluding overlong forms and surrogates). -/
def cont3First (b b1 : Nat) : Bool :=
  if b = 0xE0 then decide (0xA0 ≤ b1 ∧ b1 ≤ 0xBF)
  else if b = 0xED then decide (0x80 ≤ b1 ∧ b1 ≤ 0x9F)
  else isCont b1

/-- Valid range of the first continuation byte of a four-byte sequence. -/
def cont4First (b b1 : Nat) : Bool :=
  if b = 0xF0 then decide (0x90 ≤ b1 ∧ b1 ≤ 0xBF)
  else if b = 0xF4 then decide (0x80 ≤ b1 ∧ b1 ≤ 0x8F)
  else isCont b1

/-- WHATWG UTF-8 decoding with replacement, as performed by Node's
`Buffer.prototype.toString('utf8')` on ONE chunk in isolation: malformed or
truncated sequences become U+FFFD (one per maximal invalid subpart, an
invalid byte after a lead byte is reconsumed as a fresh lead). -/
def utf8DecodeAux : List Nat → List Char
  | [] => []
  | b :: rest =>
      if b < 0x80 then Char.ofNat b :: utf8DecodeAux rest
      else if 0xC2 ≤ b ∧ b ≤ 0xDF then
        match rest with
        | [] => [replChar]
        | b1 :: rest1 =>
            if isCont b1 then
              Char.ofNat ((b - 0xC0) * 0x40 + (b1 - 0x80)) :: utf8DecodeAux rest1
            else replChar :: utf8DecodeAux (b1 :: rest1)
      else if 0xE0 ≤ b ∧ b ≤ 0xEF then
        match rest with
        | [] => [replChar]
        | b1 :: rest1 =>
            if cont3First b b1 then
              match rest1 with
              | [] => [replChar, replChar]
              | b2 :: rest2 =>
                  if isCont b2 then
                    Char.ofNat ((b - 0xE0) * 0x1000 + (b1 - 0x80) * 0x40 + (b2 - 0x80)) ::
                      utf8DecodeAux rest2
                  else replChar :: utf8DecodeAux (b2 :: rest2)
            else replChar :: utf8DecodeAux (b1 :: rest1)
      else if 0xF0 ≤ b ∧ b ≤ 0xF4 then
        match rest with
        | [] => [replChar]
        | b1 :: rest1 =>
            if cont4First b b1 then
              match rest1 with
              | [] => [replChar, replChar]
              | b2 :: rest2 =>
                  if isCont b2 then
                    match rest2 with
                    | [] => [replChar, replChar, replChar]
                    | b3 :: rest3 =>
                        if isCont b3 then
                          Char.ofNat ((b - 0xF0) * 0x40000 + (b1 - 0x80) * 0x1000 +
                              (b2 - 0x80) * 0x40 + (b3 - 0x80)) ::
                            utf8DecodeAux rest3
                        else replChar :: utf8DecodeAux (b3 :: rest3)
                  else replChar :: utf8DecodeAux (b2 :: rest2)
            else replChar :: utf8DecodeAux (b1 :: rest1)
      else replChar :: utf8DecodeAux rest

/-- One chunk decoded in isolation, as a string. -/
def utf8DecodeChunk (bytes : List Nat) : String := ⟨utf8DecodeAux bytes⟩

/-- The `this.child.stdout.on('data', ...)` handler: `data.toString()` is
applied to EACH chunk separately and the result is fed to `handleData`. -/
def onData (parse : String → Option JsonRpcResponse) (st : BridgeState)
    (bytes : List Nat) : BridgeState × List Ev :=
  handleData parse st (utf8DecodeChunk bytes)

/-- Deliver a sequence of stdout byte chunks, concatenating the emitted
events. -/
def feedBytes (parse : String → Option JsonRpcResponse) (st : BridgeState)
    (chunks : List (List Nat)) : BridgeState × List Ev :=
  chunks.foldl
    (fun acc c =>
      let r := onData parse acc.1 c
      (r.1, acc.2 ++ r.2))
    (st, [])

/-- `send(method, params)`: lazily start if no child is attached (its
exception escapes before any registration), allocate `++this.requestId`,
register the pending entry, and write the serialized request object
`{jsonrpc, method, params, id}` plus one newline in a single write.  The
returned `Nat` is the allocated id. -/
def send (env : Env) (st : BridgeState) (method : String) (params : Json) :
    Except String (BridgeState × List Ev × Nat) :=
  match (if st.child.isNone then start env st else .ok (st, [])) with
  | .error e => .error e
  | .ok (st1, evs1) =>
      let id := st1.requestId + 1
      let request : Json :=
        .obj [("jsonrpc", .str "2.0"), ("method", .str method),
              ("params", params), ("id", .num (Int.ofNat id))]
      .ok ({ st1 with requestId := id,
                      pendingRequests := mapSet st1.pendingRequests id },
           evs1 ++ [.write (jsonStringify request ++ "\n")], id)

/-- A sequence of `send` calls, returning the final state and the ids
allocated in order (the first thrown exception aborts the sequence). -/
def sendSeq (env : Env) (st : BridgeState) :
    List (String × Json) → Except String (BridgeState × List Nat)
  | [] => .ok (st, [])
  | c :: cs =>
      match send env st c.1 c.2 with
      | .error e => .error e
      | .ok (st1, _evs, id) =>
          match sendSeq env st1 cs with
          | .error e => .error e
          | .ok (st2, ids) => .ok (st2, id :: ids)

/-- The operations the environment can perform on one bridge instance. -/
inductive Op where
  /-- A caller invokes `send(method, params)`. -/
  | opSend : String → Json → Op
  /-- The worker's stdout delivers a byte chunk. -/
  | opData : List Nat → Op
  /-- The worker process exits with the given code. -/
  | opExit : Option Int → Op
  /-- The caller invokes `stop()`. -/
  | opStop : Op

/-- One step of the bridge: a thrown `send` exception leaves the state
unchanged (it escapes before any mutation). -/
def step (env : Env) (parse : String → Option JsonRpcResponse)
    (st : BridgeState) : Op → BridgeState
  | .opSend m p =>
      match send env st m p with
      | .ok r => r.1
      | .error _ => st
  | .opData bytes => (onData parse st bytes).1
  | .opExit c => (onExit st c).1
  | .opStop => (stop st).1

/-- A whole interaction: fold the steps over an operation list. -/
def run (env : Env) (parse : String → Option JsonRpcResponse)
    (st : BridgeState) (ops : List Op) : BridgeState :=
  ops.foldl (step env parse) st

end Bridge

/-- The strings written to the worker's stdin, in order. -/
def writtenLines (evs : List Ev) : List String :=
  evs.filterMap (fun e => match e with | .write s => some s | _ => none)

/-- `true` for every event that is not a completion (neither resolves nor
rejects a pending request). -/
def notCompletion : Ev → Bool
  | .resolved _ _ => false
  | .rejected _ _ => false
  | _ => true

/-- A parse oracle that rejects everything (used where no protocol line is
ever parsed). -/
def noParse : String → Option JsonRpcResponse := fun _ => none

/-- A concrete environment: an explicit binary path is supplied and neither
fallback location exists. -/
def env0 : Env :=
  ⟨some "/usr/local/bin/omniagentpay-server",
   "/repo/dist/omniagentpay-server", "/repo/node_modules/omniagentpay/bin/omniagentpay-server",
   false, false⟩

/-- A bridge with a running worker and one pending request (id 1). -/
def stPending : BridgeState := ⟨some (), 1, [1], ""⟩

/-- A bridge with a running worker and no request sent yet. -/
def stRunning : BridgeState := ⟨some (), 0, [], ""⟩

/-- A bridge with a running worker and a pending request of id 5. -/
def stPending5 : BridgeState := ⟨some (), 5, [5], ""⟩

/-- A bridge with a running worker and a pending request of id 7. -/
def stPending7 : BridgeState := ⟨some (), 7, [7], ""⟩

/-- The state after one request was sent (id 1, still pending) and the
worker then exited. -/
def stAfterExit : BridgeState := ⟨none, 1, [1], ""⟩

/-- The state reached from `stAfterExit` by one more `send`: a replacement
worker, id counter at 2, both entries pending. -/
def stRestart : BridgeState := ⟨some (), 2, [1, 2], ""⟩

/-- The events of the `send` that restarts the worker from `stAfterExit`. -/
def evsRestart : List Ev :=
  [Ev.log "[OmniAgentPay] Spawning sidecar: /usr/local/bin/omniagentpay-server",
   Ev.spawn "/usr/local/bin/omniagentpay-server",
   Ev.write "\x7b\"jsonrpc\":\"2.0\",\"method\":\"pay\",\"params\":\x7b\x7d,\"id\":2\x7d\n"]

/-- A response carrying an error object with `code` 1 and message `boom`. -/
def respErr1 : JsonRpcResponse :=
  ⟨7, none, some (.obj [("code", .num 1), ("message", .str "boom")])⟩

/-- A response carrying an error object with a different `code` (2), the
same message, and a `data` field. -/
def respErr2 : JsonRpcResponse :=
  ⟨7, none, some (.obj [("code", .num 2), ("message", .str "boom"), ("data", .str "details")])⟩

/-- Two `send` calls, used to exercise `sendSeq`. -/
def callsDemo : List (String × Json) := [("health", Json.obj []), ("pay", Json.obj [])]

/-- A mixed operation trace: send, stdout data, worker exit, a second send
(restarting the worker), stop. -/
def opsDemo : List Bridge.Op :=
  [.opSend "health" (Json.obj []), .opData [0x41, 0x0A], .opExit (some 1),
   .opSend "pay" (Json.obj []), .opStop]

/-! ## Helper lemmas -/

theorem start_ok_state (env : Env) (st st' : BridgeState) (evs : List Ev)
    (h : Bridge.start env st = .ok (st', evs)) :
    st' = { st with child := some () } := by
  unfold Bridge.start at h
  cases hb : Bridge.getBinaryPath env <;> rw [hb] at h
  · exact absurd h (by simp)
  · simp only [Except.ok.injEq, Prod.mk.injEq] at h
    exact h.1.symm

theorem send_ok_parts (env : Env) (st : BridgeState) (m : String) (p : Json)
    (st' : BridgeState) (evs : List Ev) (id : Nat)
    (h : Bridge.send env st m p = .ok (st', evs, id)) :
    id = st.requestId + 1 ∧ st'.requestId = st.requestId + 1 ∧
    st'.pendingRequests = Bridge.mapSet st.pendingRequests id := by
  unfold Bridge.send at h
  by_cases hc : st.child.isNone
  · rw [if_pos hc] at h
    cases hs : Bridge.start env st <;> rw [hs] at h
    · exact absurd h (by simp)
    · rename_i r
      obtain ⟨st1, evs1⟩ := r
      have h1 := start_ok_state env st st1 evs1 hs
      subst h1
      simp only [Except.ok.injEq, Prod.mk.injEq] at h
      obtain ⟨hst, _hevs, hid⟩ := h
      subst hst
      subst hid
      refine ⟨?_, ?_, ?_⟩ <;> simp
  · rw [if_neg hc] at h
    simp only [Except.ok.injEq, Prod.mk.injEq] at h
    obtain ⟨hst, _hevs, hid⟩ := h
    subst hst
    subst hid
    refine ⟨?_, ?_, ?_⟩ <;> simp

theorem mapSet_nodup (l : List Nat) (id : Nat) (h : l.Nodup) :
    (Bridge.mapSet l id).Nodup := by
  unfold Bridge.mapSet
  split
  · exact h
  · rename_i hmem
    rw [← List.concat_eq_append]
    exact List.Nodup.concat hmem h

theorem mem_mapSet_of_mem (l : List Nat) (id a : Nat) (h : a ∈ l) :
    a ∈ Bridge.mapSet l id := by
  unfold Bridge.mapSet
  split
  · exact h
  · exact List.mem_append_left _ h

theorem resolveRequest_nodup (st : BridgeState) (resp : JsonRpcResponse)
    (h : st.pendingRequests.Nodup) :
    ((Bridge.resolveRequest st resp).1.pendingRequests).Nodup := by
  unfold Bridge.resolveRequest
  split
  · exact h.erase _
  · exact h

theorem handleLine_nodup (parse : String → Option JsonRpcResponse)
    (st : BridgeState) (line : String) (h : st.pendingRequests.Nodup) :
    ((Bridge.handleLine parse st line).1.pendingRequests).Nodup := by
  unfold Bridge.handleLine
  dsimp only
  split
  · exact h
  · split
    · exact h
    · split
      · exact resolveRequest_nodup st _ h
      · exact h

theorem foldl_handleLine_nodup (parse : String → Option JsonRpcResponse)
    (lines : List String) :
    ∀ p : BridgeState × List Ev, p.1.pendingRequests.Nodup →
      ((lines.foldl
          (fun acc line =>
            let r := Bridge.handleLine parse acc.1 line
            (r.1, acc.2 ++ r.2)) p).1.pendingRequests).Nodup := by
  induction lines with
  | nil => exact fun p h => h
  | cons l ls ih =>
      intro p h
      simp only [List.foldl_cons]
      exact ih _ (handleLine_nodup parse p.1 l h)

theorem handleData_nodup (parse : String → Option JsonRpcResponse)
    (st : BridgeState) (chunk : String) (h : st.pendingRequests.Nodup) :
    ((Bridge.handleData parse st chunk).1.pendingRequests).Nodup := by
  unfold Bridge.handleData
  exact foldl_handleLine_nodup parse _ _ h

theorem step_nodup (env : Env) (parse : String → Option JsonRpcResponse)
    (st : BridgeState) (op : Bridge.Op) (h : st.pendingRequests.Nodup) :
    ((Bridge.step env parse st op).pendingRequests).Nodup := by
  cases op with
  | opSend m p =>
      simp only [Bridge.step]
      cases hs : Bridge.send env st m p
      · simpa using h
      · rename_i r
        obtain ⟨st', evs, id⟩ := r
        have hp := send_ok_parts env st m p st' evs id hs
        simpa [hp.2.2] using mapSet_nodup _ id h
  | opData bytes => exact handleData_nodup parse st _ h
  | opExit c => exact h
  | opStop => exact h

theorem run_nodup (env : Env) (parse : String → Option JsonRpcResponse)
    (ops : List Bridge.Op) :
    ∀ st : BridgeState, st.pendingRequests.Nodup →
      ((Bridge.run env parse st ops).pendingRequests).Nodup := by
  induction ops with
  | nil => exact fun st h => h
  | cons op rest ih =>
      intro st h
      simp only [Bridge.run, List.foldl_cons]
      exact ih _ (step_nodup env parse st op h)

theorem sendSeq_ids (env : Env) (calls : List (String × Json)) :
    ∀ (st st' : BridgeState) (ids : List Nat),
      Bridge.sendSeq env st calls = .ok (st', ids) →
      ids = List.range' (st.requestId + 1) calls.length := by
  induction calls with
  | nil =>
      intro st st' ids h
      unfold Bridge.sendSeq at h
      simp only [Except.ok.injEq, Prod.mk.injEq] at h
      simp [← h.2]
  | cons c cs ih =>
      intro st st' ids h
      unfold Bridge.sendSeq at h
      cases hs : Bridge.send env st c.1 c.2 <;> rw [hs] at h
      · exact absurd h (by simp)
      · rename_i r
        obtain ⟨st1, evs1, id⟩ := r
        simp only at h
        cases hq : Bridge.sendSeq env st1 cs <;> rw [hq] at h
        · exact absurd h (by simp)
        · rename_i r2
          obtain ⟨st2, ids2⟩ := r2
          simp only [Except.ok.injEq, Prod.mk.injEq] at h
          have hp := send_ok_parts env st c.1 c.2 st1 evs1 id hs
          have h2 := ih st1 st2 ids2 hq
          rw [← h.2, h2, hp.2.1, hp.1, List.length_cons, List.range'_succ]

/-! ## Claim theorems -/

/-- C1: the claim demands that every request pending when the worker
terminates (exit or `stop()`) is rejected exactly once.  Evaluating the code
at the failing input — a worker exiting (and, separately, `stop()`) with
request id 1 still pending — shows the pending entry survives untouched and
no completion event (no rejection at all) is emitted: the request is
silently dropped, contradicting the claim. -/
theorem exit_and_stop_leave_pending_request_unrejected :
    (Bridge.onExit stPending (some 0)).1.pendingRequests = [1] ∧
    (Bridge.onExit stPending (some 0)).2.all notCompletion = true ∧
    (Bridge.stop stPending).1.pendingRequests = [1] ∧
    (Bridge.stop stPending).2.all notCompletion = true := by
  refine ⟨rfl, rfl, rfl, rfl⟩

/-- C2 counterexample: on a fresh bridge, `send("health", {})` writes the
line `\x7b"jsonrpc":"2.0","method":"health","params":\x7b\x7d,"id":1\x7d`
(the field is named `jsonrpc`), not the claimed line whose version field is
named `protocolVersion`. -/
theorem first_send_line_uses_jsonrpc_field :
    Except.map (fun r => writtenLines r.2.1)
        (Bridge.send env0 Bridge.initState "health" (Json.obj [])) =
      .ok ["\x7b\"jsonrpc\":\"2.0\",\"method\":\"health\",\"params\":\x7b\x7d,\"id\":1\x7d\n"] ∧
    ("\x7b\"jsonrpc\":\"2.0\",\"method\":\"health\",\"params\":\x7b\x7d,\"id\":1\x7d" : String) ≠
      "\x7b\"protocolVersion\":\"2.0\",\"method\":\"health\",\"params\":\x7b\x7d,\"id\":1\x7d" := by
  exact ⟨rfl, by decide⟩

/-- C2 (amended): on a bridge whose worker is attached, every
`send(method, params)` performs exactly one stdin write, whose content is
the serialization of the request object with the fields `jsonrpc` (equal to
`"2.0"`), `method`, `params` and `id` — in that order — followed by a
single line terminator. -/
theorem send_writes_single_request_line (env : Env) (st : BridgeState)
    (method : String) (params : Json) (h : st.child = some ()) :
    Except.map (fun r => r.2.1) (Bridge.send env st method params) =
      .ok [Ev.write (jsonStringify (Json.obj
        [("jsonrpc", Json.str "2.0"), ("method", Json.str method),
         ("params", params), ("id", Json.num (Int.ofNat (st.requestId + 1)))]) ++ "\n")] := by
  simp [Bridge.send, h, Except.map]

/-- C2 witness: the amended theorem applied to a running bridge with a fresh
id counter yields exactly the concrete `jsonrpc` health line. -/
theorem send_writes_single_request_line_witness :
    Except.map (fun r => r.2.1) (Bridge.send env0 stRunning "health" (Json.obj [])) =
      .ok [Ev.write "\x7b\"jsonrpc\":\"2.0\",\"method\":\"health\",\"params\":\x7b\x7d,\"id\":1\x7d\n"] := by
  rw [send_writes_single_request_line env0 stRunning "health" (Json.obj []) rfl]
  rfl

/-- C3: the claim demands chunk-boundary invariance including splits inside
a multibyte character.  Failing input: the line `€` + newline (bytes
E2 82 AC 0A) delivered as the two chunks `[E2]` and `[82 AC 0A]`.  Because
the code decodes each chunk separately (`data.toString()` per `data` event),
the whole-sequence delivery emits the diagnostic line `€` while the split
delivery emits `���` — a different emitted line, refuting invariance. -/
theorem midchar_chunk_split_changes_decoded_lines :
    (Bridge.feedBytes noParse Bridge.initState [[0xE2, 0x82, 0xAC, 0x0A]]).2 =
      [Ev.diag "€"] ∧
    (Bridge.feedBytes noParse Bridge.initState [[0xE2], [0x82, 0xAC, 0x0A]]).2 =
      [Ev.diag "���"] ∧
    (Bridge.feedBytes noParse Bridge.initState [[0xE2], [0x82, 0xAC, 0x0A]]).2 ≠
      (Bridge.feedBytes noParse Bridge.initState [[0xE2, 0x82, 0xAC, 0x0A]]).2 := by
  have h1 : (Bridge.feedBytes noParse Bridge.initState [[0xE2, 0x82, 0xAC, 0x0A]]).2 =
      [Ev.diag "€"] := rfl
  have h2 : (Bridge.feedBytes noParse Bridge.initState [[0xE2], [0x82, 0xAC, 0x0A]]).2 =
      [Ev.diag "���"] := rfl
  refine ⟨h1, h2, ?_⟩
  rw [h1, h2]
  intro h
  injection h with ha _
  injection ha with hb
  exact absurd hb (by decide)

/-- C4: classification and routing of decoded lines (3 behaviours, together
with the empty-trim skip, exhaust the loop body, so the classification is an
"if and only if").  A non-empty line whose trimmed content does not start
with an opening brace leaves the state (hence every pending request)
untouched and is routed only to the diagnostic sink; a brace line that fails
to parse leaves the state untouched and produces only the logged-error
event (the handler is a total function, so the failure is never raised);
a brace line that parses is handed to `resolveRequest`.  This holds for
every parse oracle, state and line. -/
theorem line_classification_and_routing
    (parse : String → Option JsonRpcResponse) (st : BridgeState) (line : String) :
    (Bridge.jsTrim line = "" → Bridge.handleLine parse st line = (st, [])) ∧
    (Bridge.jsTrim line ≠ "" → Bridge.startsWithBrace (Bridge.jsTrim line) = false →
      Bridge.handleLine parse st line = (st, [Ev.diag (Bridge.jsTrim line)])) ∧
    (Bridge.jsTrim line ≠ "" → Bridge.startsWithBrace (Bridge.jsTrim line) = true →
      parse (Bridge.jsTrim line) = none →
      Bridge.handleLine parse st line = (st, [Ev.parseFail (Bridge.jsTrim line)])) ∧
    (∀ resp, Bridge.jsTrim line ≠ "" → Bridge.startsWithBrace (Bridge.jsTrim line) = true →
      parse (Bridge.jsTrim line) = some resp →
      Bridge.handleLine parse st line = Bridge.resolveRequest st resp) := by
  refine ⟨?_, ?_, ?_, ?_⟩
  · intro he
    simp [Bridge.handleLine, he]
  · intro he hb
    simp [Bridge.handleLine, he, hb]
  · intro he hb hp
    simp [Bridge.handleLine, he, hb, hp]
  · intro resp he hb hp
    simp [Bridge.handleLine, he, hb, hp]

/-- C4 witness: a concrete diagnostic line (` log line `, surrounded by
whitespace, not starting with a brace) is trimmed, routed only to the
diagnostic sink, and changes no state. -/
theorem line_classification_and_routing_witness :
    Bridge.handleLine noParse Bridge.initState "  log line " =
      (Bridge.initState, [Ev.diag "log line"]) := by
  exact (line_classification_and_routing noParse Bridge.initState "  log line ").2.1
    (by decide) (by decide)

/-- C5 counterexample: two matched error responses that differ in their
error object's `code` (1 vs 2) and `data` (absent vs present) but share the
message `boom` produce IDENTICAL outcomes — the rejection is
`new Error(error.message)`, which carries only the message, so the claimed
`RemoteError` carrying code and data is refuted. -/
theorem reject_payload_ignores_error_code_and_data :
    respErr1.error ≠ respErr2.error ∧
    Bridge.resolveRequest stPending7 respErr1 = Bridge.resolveRequest stPending7 respErr2 ∧
    Bridge.resolveRequest stPending7 respErr1 =
      (⟨some (), 7, [], ""⟩, [Ev.rejected 7 (some (Json.str "boom"))]) := by
  refine ⟨?_, rfl, rfl⟩
  intro h
  injection h with h1
  injection h1 with h2
  injection h2 with h3 _
  injection h3 with _ h4
  injection h4 with h5
  exact absurd h5 (by decide)

/-- C5 (amended): when a classified response's id matches a pending entry,
a truthy `error` rejects the caller's operation with an `Error` carrying
ONLY the error object's `message` field (code and data are dropped), a
falsy/absent `error` resolves it with the `result` field, and in both cases
the pending entry is removed. -/
theorem resolveRequest_matched_response_outcome (st : BridgeState)
    (resp : JsonRpcResponse) (h : resp.id ∈ st.pendingRequests) :
    (optTruthy resp.error = true →
      Bridge.resolveRequest st resp =
        ({ st with pendingRequests := st.pendingRequests.erase resp.id },
         [Ev.rejected resp.id (resp.error.bind (fun e => jsonField e "message"))])) ∧
    (optTruthy resp.error = false →
      Bridge.resolveRequest st resp =
        ({ st with pendingRequests := st.pendingRequests.erase resp.id },
         [Ev.resolved resp.id resp.result])) := by
  constructor <;> intro he <;> simp [Bridge.resolveRequest, h, he]

/-- C5 witness: the amended theorem at the concrete matched error response
`respErr2`: rejected with only the message `boom`, entry 7 removed. -/
theorem resolveRequest_matched_response_outcome_witness :
    Bridge.resolveRequest stPending7 respErr2 =
      (⟨some (), 7, [], ""⟩, [Ev.rejected 7 (some (Json.str "boom"))]) := by
  rw [(resolveRequest_matched_response_outcome stPending7 respErr2 (by decide)).1 rfl]
  rfl

/-- C6 counterexample: with a worker already running (`stRunning.child` is
attached), `start()` is not a no-op: it resolves the path and spawns the
worker again, emitting a spawn of the sidecar binary, refuting the claimed
idempotence. -/
theorem start_spawns_again_when_already_running :
    stRunning.child = some () ∧
    Except.map (fun r => r.2) (Bridge.start env0 stRunning) =
      .ok [Ev.log "[OmniAgentPay] Spawning sidecar: /usr/local/bin/omniagentpay-server",
           Ev.spawn "/usr/local/bin/omniagentpay-server"] := by
  exact ⟨rfl, rfl⟩

/-- C6 (amended): `start()` unconditionally spawns (the idempotence guard is
absent), and the rest of the claim holds: the executable path is resolved by
trying, in order, the explicitly supplied (truthy) path, the local dev build
path, and the installed package path, failing with the descriptive error
naming both fallback paths when none exist; inside `send`, that launch
failure propagates synchronously — the send returns the error and the state
(in particular the pending map) is untouched, so no pending entry was
registered. -/
theorem getBinaryPath_order_and_synchronous_launch_failure
    (env : Env) (st : BridgeState) (parse : String → Option JsonRpcResponse)
    (m : String) (ps : Json) :
    (∀ p, env.binaryPath = some p → p ≠ "" → Bridge.getBinaryPath env = .ok p) ∧
    (env.binaryPath.getD "" = "" → env.devPathExists = true →
      Bridge.getBinaryPath env = .ok env.devPath) ∧
    (env.binaryPath.getD "" = "" → env.devPathExists = false → env.prodPathExists = true →
      Bridge.getBinaryPath env = .ok env.prodPath) ∧
    (env.binaryPath.getD "" = "" → env.devPathExists = false → env.prodPathExists = false →
      Bridge.getBinaryPath env =
        .error ("Could not locate omniagentpay-server binary. Tries:\n" ++
          env.devPath ++ "\n" ++ env.prodPath)) ∧
    (∀ bin, Bridge.getBinaryPath env = .ok bin →
      Bridge.start env st = .ok ({ st with child := some () },
        [Ev.log ("[OmniAgentPay] Spawning sidecar: " ++ bin), Ev.spawn bin])) ∧
    (∀ msg, st.child = none → Bridge.getBinaryPath env = .error msg →
      Bridge.send env st m ps = .error msg ∧
      Bridge.step env parse st (.opSend m ps) = st) := by
  refine ⟨?_, ?_, ?_, ?_, ?_, ?_⟩
  · intro p hp hne
    simp [Bridge.getBinaryPath, hp, hne]
  · intro he hd
    simp [Bridge.getBinaryPath, he, hd]
  · intro he hd hpr
    simp [Bridge.getBinaryPath, he, hd, hpr]
  · intro he hd hpr
    simp [Bridge.getBinaryPath, he, hd, hpr]
  · intro bin hb
    simp [Bridge.start, hb]
  · intro msg hc hb
    have hsend : Bridge.send env st m ps = .error msg := by
      simp [Bridge.send, Bridge.start, hc, hb]
    refine ⟨hsend, ?_⟩
    simp [Bridge.step, hsend]

/-- C6 witness: the amended theorem's first branch on the concrete
environment with an explicit binary path. -/
theorem getBinaryPath_order_witness :
    Bridge.getBinaryPath env0 = .ok "/usr/local/bin/omniagentpay-server" := by
  exact (getBinaryPath_order_and_synchronous_launch_failure env0 Bridge.initState noParse
    "health" (Json.obj [])).1 "/usr/local/bin/omniagentpay-server" rfl (by decide)

/-- C7: a well-formed classified response whose id has no pending entry is
dropped: `resolveRequest` returns the state unchanged and performs no
action at all — nothing is raised, nothing resolved, nothing rejected. -/
theorem unmatched_response_is_dropped (st : BridgeState) (resp : JsonRpcResponse)
    (h : resp.id ∉ st.pendingRequests) :
    Bridge.resolveRequest st resp = (st, []) := by
  simp [Bridge.resolveRequest, h]

/-- C7 witness: a response for id 1 arriving on a fresh bridge (no pending
entries) is dropped. -/
theorem unmatched_response_is_dropped_witness :
    Bridge.resolveRequest Bridge.initState ⟨1, some (Json.bool true), none⟩ =
      (Bridge.initState, []) := by
  exact unmatched_response_is_dropped Bridge.initState ⟨1, some (Json.bool true), none⟩
    (by decide)

/-- C8: (1) any successful sequence of `send` calls allocates exactly the
ids `requestId+1, requestId+2, …` — from a fresh instance, `1, 2, …` — a
strictly increasing sequence with no reuse; (2) along every operation trace
(sends, stdout chunks, exits, stops) from a fresh instance the pending map
holds at most one entry per id (its key list stays duplicate-free). -/
theorem ids_strictly_increasing_and_pending_nodup :
    (∀ (env : Env) (st : BridgeState) (calls : List (String × Json))
        (st' : BridgeState) (ids : List Nat),
      Bridge.sendSeq env st calls = .ok (st', ids) →
      ids = List.range' (st.requestId + 1) calls.length ∧ ids.Pairwise (· < ·)) ∧
    (∀ (env : Env) (parse : String → Option JsonRpcResponse) (ops : List Bridge.Op),
      ((Bridge.run env parse Bridge.initState ops).pendingRequests).Nodup) := by
  constructor
  · intro env st calls st' ids h
    have h1 := sendSeq_ids env calls st st' ids h
    subst h1
    exact ⟨rfl, List.pairwise_lt_range' _ _⟩
  · intro env parse ops
    exact run_nodup env parse ops Bridge.initState (by simp [Bridge.initState])

/-- C8 witness: two concrete sends from a fresh instance allocate `[1, 2]`,
strictly increasing; a concrete mixed trace (send, data, worker exit,
restarting send, stop) ends with a duplicate-free pending map. -/
theorem ids_strictly_increasing_and_pending_nodup_witness :
    (([1, 2] : List Nat) = List.range' (Bridge.initState.requestId + 1) callsDemo.length ∧
      ([1, 2] : List Nat).Pairwise (· < ·)) ∧
    ((Bridge.run env0 noParse Bridge.initState opsDemo).pendingRequests).Nodup := by
  exact ⟨ids_strictly_increasing_and_pending_nodup.1 env0 Bridge.initState callsDemo
      ⟨some (), 2, [1, 2], ""⟩ [1, 2] rfl,
    ids_strictly_increasing_and_pending_nodup.2 env0 noParse opsDemo⟩

/-- C9: `send` on a bridge with no attached worker (never started, worker
exited, or stopped) spawns a fresh worker and continues the instance state:
the allocated id is `requestId + 1` (so not 1 once a request was ever
allocated), the counter is not reset, and every entry that was pending
stays in the map. -/
theorem send_restarts_worker_preserving_ids_and_pending
    (env : Env) (st : BridgeState) (m : String) (ps : Json) (bin : String)
    (hc : st.child = none) (hb : Bridge.getBinaryPath env = .ok bin) :
    (Bridge.send env st m ps).toOption.isSome = true ∧
    (∀ st' evs id, Bridge.send env st m ps = .ok (st', evs, id) →
      Ev.spawn bin ∈ evs ∧
      id = st.requestId + 1 ∧
      st'.requestId = st.requestId + 1 ∧
      st.pendingRequests.all (fun i => decide (i ∈ st'.pendingRequests)) = true ∧
      (1 ≤ st.requestId → id ≠ 1)) := by
  have hsend : Bridge.send env st m ps =
      .ok (⟨some (), st.requestId + 1,
              Bridge.mapSet st.pendingRequests (st.requestId + 1), st.buffer⟩,
           [Ev.log ("[OmniAgentPay] Spawning sidecar: " ++ bin), Ev.spawn bin,
            Ev.write (jsonStringify (Json.obj
              [("jsonrpc", Json.str "2.0"), ("method", Json.str m),
               ("params", ps), ("id", Json.num (Int.ofNat (st.requestId + 1)))]) ++ "\n")],
           st.requestId + 1) := by
    simp [Bridge.send, Bridge.start, hc, hb]
  refine ⟨by rw [hsend]; rfl, ?_⟩
  intro st' evs id h
  rw [hsend] at h
  simp only [Except.ok.injEq, Prod.mk.injEq] at h
  obtain ⟨hst, hevs, hid⟩ := h
  subst hst
  subst hevs
  subst hid
  refine ⟨by simp, rfl, rfl, ?_, by omega⟩
  rw [List.all_eq_true]
  intro i hi
  exact decide_eq_true (mem_mapSet_of_mem _ _ _ hi)

/-- C9 witness: from the state left by a first request (id 1, still
pending) and a worker exit, a `send` succeeds, spawns the sidecar again,
keeps entry 1 in the map, and allocates id 2 — not 1. -/
theorem send_restarts_worker_preserving_ids_and_pending_witness :
    (Bridge.send env0 stAfterExit "pay" (Json.obj [])).toOption.isSome = true ∧
    Ev.spawn "/usr/local/bin/omniagentpay-server" ∈ evsRestart ∧
    stAfterExit.pendingRequests.all
      (fun i => decide (i ∈ stRestart.pendingRequests)) = true ∧
    (2 : Nat) ≠ 1 := by
  have h := send_restarts_worker_preserving_ids_and_pending env0 stAfterExit "pay"
    (Json.obj []) "/usr/local/bin/omniagentpay-server" rfl rfl
  have h2 := h.2 stRestart evsRestart 2 (by rfl)
  exact ⟨h.1, h2.1, h2.2.2.2.1, h2.2.2.2.2 (by decide)⟩

/-- C10: the bridge never validates that exactly one of `result`/`error` is
present: whenever the id matches a pending entry and `error` is absent or
otherwise falsy, the request resolves with the raw `result` field —
whatever it is, including `none` (an absent `result`, i.e. resolving with
`undefined`) — and the entry is removed. -/
theorem falsy_error_resolves_with_result (st : BridgeState)
    (resp : JsonRpcResponse) (h : resp.id ∈ st.pendingRequests)
    (he : optTruthy resp.error = false) :
    Bridge.resolveRequest st resp =
      ({ st with pendingRequests := st.pendingRequests.erase resp.id },
       [Ev.resolved resp.id resp.result]) := by
  simp [Bridge.resolveRequest, h, he]

/-- C10 witness: a matched response with NEITHER `result` nor `error`
resolves the pending request with the absent value and removes the entry. -/
theorem falsy_error_resolves_with_result_witness :
    Bridge.resolveRequest stPending5 ⟨5, none, none⟩ =
      (⟨some (), 5, [], ""⟩, [Ev.resolved 5 none]) := by
  rw [falsy_error_resolves_with_result stPending5 ⟨5, none, none⟩ (by decide) rfl]
  rfl
